import Mathlib

/-!
# Verification of the openrouteservice request dispatcher

Shallow embedding of `openrouteservice/client.py` (the `Client` class: URL
authentication, client-side rate limiting, retry with backoff, response
classification) together with the URL-encoding helpers it uses.

Modelling conventions:
* wall-clock time and sleep durations are rationals (seconds);
* `datetime.now()` / `time.time()` are an explicit `clock` field threaded
  through the run;
* `random.random()` is an oracle `jitters : Nat -> Rat` indexed by the retry
  counter;
* the network is an oracle `List DispatchEnv`: for each HTTP dispatch it
  yields how long the round trip took and either a response (status, parsed
  JSON body as an opaque string) or a transport failure;
* Python exceptions become an error type; `print` diagnostics other than the
  dry-run output are not modelled; the observable actions of a run (sleeps,
  dispatches, dry-run print, timestamp recording) are returned as an event
  trace.
-/

namespace ORS

/-- A JSON-ish parameter value as passed to the query string builder
(`str` or number in the Python source). -/
inductive PVal
  | str (s : String)
  | int (n : Int)
deriving DecidableEq, Repr

/-- `params` as accepted by `Client.request`: a dict or a list of key/value
tuples.  A dict is its item list (keys unique); Python's `type(params) is
dict` test is the constructor distinction. -/
inductive Params
  | dict (entries : List (String × PVal))
  | list (pairs : List (String × PVal))
deriving DecidableEq, Repr

/-- Python 3 `str()` on the values `urlencode` receives. -/
def py_str : PVal → String
  | .str s => s
  | .int n => toString n

/-- `_DEFAULT_BASE_URL` from the source. -/
def DEFAULT_BASE_URL : String := "https://api.openrouteservice.org"

/-- `_RETRIABLE_STATUSES = set([503])`. -/
def RETRIABLE_STATUSES : List Nat := [503]

/-- Python's `_ALWAYS_SAFE` set for `quote`/`quote_plus`: ASCII letters,
digits and `_.-~` are never percent-encoded. -/
def ALWAYS_SAFE (c : Char) : Bool :=
  c.isAlphanum || c = '_' || c = '.' || c = '-' || c = '~'

/-- `requests.utils.UNRESERVED_SET`: ASCII letters, digits and `-._~`. -/
def UNRESERVED_SET (c : Char) : Bool :=
  c.isAlphanum || c = '-' || c = '.' || c = '_' || c = '~'

/-- Upper-case hexadecimal digit for `n < 16`. -/
def hexDigitChar (n : Nat) : Char :=
  if n < 10 then Char.ofNat (48 + n) else Char.ofNat (55 + n)

/-- `%XX` escape of one byte, upper-case, as produced by Python's `quote`. -/
def percent_encode_byte (b : Nat) : String :=
  String.mk ['%', hexDigitChar (b / 16), hexDigitChar (b % 16)]

/-- UTF-8 bytes of a code point (Python 3 `quote` encodes non-safe
characters byte by byte from the UTF-8 encoding). -/
def utf8_bytes (n : Nat) : List Nat :=
  if n < 128 then [n]
  else if n < 2048 then [192 + n / 64, 128 + n % 64]
  else if n < 65536 then [224 + n / 4096, 128 + (n / 64) % 64, 128 + n % 64]
  else [240 + n / 262144, 128 + (n / 4096) % 64, 128 + (n / 64) % 64, 128 + n % 64]

/-- Python 3 `urllib.parse.quote_plus` with `safe=''` (the quoting function
`urlencode` applies to keys and values): safe characters pass through, a
space becomes `+`, every other character is percent-encoded byte-wise. -/
def quote_plus (s : String) : String :=
  String.join (s.data.map fun c =>
    if ALWAYS_SAFE c then String.mk [c]
    else if c = ' ' then "+"
    else String.join ((utf8_bytes c.toNat).map percent_encode_byte))

/-- Python 3 `urllib.parse.urlencode` on a list of key/value pairs (keys are
strings already; values go through `str()`). -/
def urlencode (query : List (String × PVal)) : String :=
  String.intercalate "&" (query.map fun kv =>
    quote_plus kv.1 ++ "=" ++ quote_plus (py_str kv.2))

/-- Errors a dispatcher run can signal (the exception taxonomy of
`openrouteservice.exceptions` as raised from `client.py`, plus
`requests.exceptions.InvalidURL` which `unquote_unreserved` may raise). -/
inductive ReqError
  | timeout
  | transportError
  | valueError
  | invalidURL
  | overQueryLimit (status : String) (body : String)
  | apiError (status : Nat) (body : String)
deriving DecidableEq, Repr

instance {α β : Type} [DecidableEq α] [DecidableEq β] : DecidableEq (Except α β)
  | .ok a, .ok b => if h : a = b then .isTrue (by rw [h]) else .isFalse (by simp [h])
  | .ok _, .error _ => .isFalse (by simp)
  | .error _, .ok _ => .isFalse (by simp)
  | .error a, .error b => if h : a = b then .isTrue (by rw [h]) else .isFalse (by simp [h])

/-- Hexadecimal value of a digit, as accepted by Python's `int(h, 16)`. -/
def hexVal (c : Char) : Option Nat :=
  if c.isDigit then some (c.toNat - 48)
  else if 'A' ≤ c ∧ c ≤ 'F' then some (c.toNat - 55)
  else if 'a' ≤ c ∧ c ≤ 'f' then some (c.toNat - 87)
  else none

/-- Python's `uri.split('%')` on the character list of the string. -/
def split_on_percent : List Char → List (List Char)
  | [] => [[]]
  | c :: rest =>
    let ps := split_on_percent rest
    if c = '%' then [] :: ps
    else
      match ps with
      | [] => [[c]]
      | p :: tail => (c :: p) :: tail

/-- One part of `requests.utils.unquote_unreserved`'s `uri.split('%')` loop:
if the part opens with two alphanumeric characters they must parse as hex
(otherwise `InvalidURL` is raised) and an unreserved character is unquoted;
any other part keeps its leading `%`. -/
def unquote_part (p : List Char) : Except ReqError (List Char) :=
  match p with
  | a :: b :: rest =>
    if a.isAlphanum && b.isAlphanum then
      match hexVal a, hexVal b with
      | some x, some y =>
        let c := Char.ofNat (x * 16 + y)
        if UNRESERVED_SET c then .ok (c :: rest)
        else .ok ('%' :: p)
      | _, _ => .error .invalidURL
    else .ok ('%' :: p)
  | _ => .ok ('%' :: p)

/-- The `for i in range(1, len(parts))` loop of `unquote_unreserved`,
stopping at the first raised error as the Python loop does. -/
def unquote_parts : List (List Char) → Except ReqError (List (List Char))
  | [] => .ok []
  | p :: ps =>
    match unquote_part p with
    | .error e => .error e
    | .ok x =>
      match unquote_parts ps with
      | .error e => .error e
      | .ok xs => .ok (x :: xs)

/-- `requests.utils.unquote_unreserved`: un-escape percent sequences that
denote unreserved characters; everything after the first split part keeps or
loses its `%` according to `unquote_part`, and the pieces are re-joined. -/
def unquote_unreserved (uri : String) : Except ReqError String :=
  match split_on_percent uri.data with
  | [] => .ok uri
  | p0 :: rest =>
    match unquote_parts rest with
    | .error e => .error e
    | .ok parts => .ok (String.mk (p0 ++ parts.flatten))

/-- `_normalize_for_urlencode`, Python 3 branch: a no-op. -/
def normalize_for_urlencode (v : PVal) : PVal := v

/-- `_urlencode_params`: normalize the values, URL-encode, then unquote
unreserved characters that `urlencode` escaped. -/
def urlencode_params (params : List (String × PVal)) : Except ReqError String :=
  let normalized := params.map fun kv => (kv.1, normalize_for_urlencode kv.2)
  unquote_unreserved (urlencode normalized)

/-- Lexicographic code-point comparison on character lists (Python's `<` on
strings). -/
def chars_lt : List Char → List Char → Bool
  | [], [] => false
  | [], _ :: _ => true
  | _ :: _, [] => false
  | a :: as, b :: bs =>
    if a.toNat < b.toNat then true
    else if a.toNat = b.toNat then chars_lt as bs
    else false

/-- Python's `<` on strings: lexicographic by code point. -/
def py_str_lt (a b : String) : Bool := chars_lt a.data b.data

/-- Insertion into a key-sorted pair list (helper for `sortByKey`). -/
def insert_by_key (p : String × PVal) : List (String × PVal) → List (String × PVal)
  | [] => [p]
  | q :: qs => if py_str_lt p.1 q.1 then p :: q :: qs else q :: insert_by_key p qs

/-- Python's `sorted(dict(**params).items())`: the dict's items ordered by
key (keys of a dict are unique, so the tuple order is the key order). -/
def sortByKey (l : List (String × PVal)) : List (String × PVal) :=
  l.foldr insert_by_key []

/-- The dispatcher configuration set in `Client.__init__` (the fields
`request` reads; the transport session, HTTP timeout and extra
`requests_kwargs` are opaque to the model). -/
structure Client where
  key : Option String
  base_url : String
  retry_timeout : ℚ
  queries_per_minute : Nat
  retry_over_query_limit : Bool

/-- The mutable per-instance state `request` touches: the current wall clock
and the `sent_times` deque (maxlen = `queries_per_minute`), oldest first. -/
structure ClientState where
  clock : ℚ
  sent_times : List ℚ
deriving DecidableEq, Repr

/-- `collections.deque.append` with a maxlen: the oldest entry is evicted
once the capacity is reached (a maxlen of 0 keeps the deque empty). -/
def deque_append (maxlen : Nat) (xs : List ℚ) (t : ℚ) : List ℚ :=
  (xs ++ [t]).drop ((xs ++ [t]).length - maxlen)

/-- `Client._generate_auth_url`.  Returns the authenticated path-plus-query
together with the value of the caller's `params` object after the call:
a dict is copied before sorting and comes back unchanged, but a list gets
`("api_key", key)` appended in place when a key is configured. -/
def generate_auth_url (cfg : Client) (path : String) (params : Params) :
    Except ReqError (String × Params) :=
  let items : List (String × PVal) :=
    match params with
    | .dict d => sortByKey d
    | .list l => l
  let no_key : Except ReqError (String × Params) :=
    if cfg.base_url ≠ DEFAULT_BASE_URL then
      (urlencode_params items).map fun q => (path ++ "?" ++ q, params)
    else .error .valueError
  match cfg.key with
  | some k =>
    if k = "" then no_key
    else
      let items2 := items ++ [("api_key", PVal.str k)]
      let params2 : Params :=
        match params with
        | .dict d => .dict d
        | .list _ => .list items2
      (urlencode_params items2).map fun q => (path ++ "?" ++ q, params2)
  | none => no_key

/-- `Client._get_body`: classify a response.  429 raises the over-query-limit
error (status stringified), any other non-200 raises `ApiError`, 200 returns
the parsed body. -/
def get_body (status_code : Nat) (body : String) : Except ReqError String :=
  if status_code = 429 then .error (.overQueryLimit (toString status_code) body)
  else if status_code ≠ 200 then .error (.apiError status_code body)
  else .ok body

/-- Modelled from the spec: the exception class hierarchy lives in
`openrouteservice/exceptions.py`, which is not part of the dispatcher
source.  Per the spec's response classification and error taxonomy, the
429 quota error is the only retriable exception `_get_body` raises
(`RetriableQuotaError`), while `ApiError` is fatal; so the
`_RetriableRequest` handler in `request` catches exactly the
over-query-limit error. -/
def is_retriable_request_exc : ReqError → Bool
  | .overQueryLimit _ _ => true
  | _ => false

/-- `isinstance(e, _OverQueryLimit)`. -/
def is_over_query_limit : ReqError → Bool
  | .overQueryLimit _ _ => true
  | _ => false

/-- Observable actions of a dispatcher run. -/
inductive Event
  | backoffSleep (d : ℚ)
  | rateLimitSleep (d : ℚ)
  | printDryRun (full_url : String) (post_json : Option String)
  | dispatch (full_url : String) (is_post : Bool)
  | appendSent (t : ℚ)
deriving DecidableEq, Repr

/-- What one HTTP dispatch did: how much wall time the round trip consumed
and how it ended (a status/body response, a transport timeout, or another
transport failure). -/
inductive DispatchOutcome
  | resp (status : Nat) (body : String)
  | netTimeout
  | netError
deriving DecidableEq, Repr

/-- Network oracle entry for one dispatch. -/
structure DispatchEnv where
  netDelay : ℚ
  outcome : DispatchOutcome
deriving DecidableEq, Repr

/-- Terminal outcome of a run of `request`. -/
inductive ReqResult
  | success (body : String)
  | noResult
  | stuck
  | error (e : ReqError)
deriving DecidableEq, Repr

/-- The backoff delay of the source:
`delay_seconds = 1.5 ** (retry_counter - 1)` scaled by
`random.random() + 0.5`. -/
def backoff_delay (retry_counter : Nat) (r : ℚ) : ℚ :=
  (3 / 2 : ℚ) ^ (retry_counter - 1) * (r + 1 / 2)

/-- The `if retry_counter > 0` backoff block of `request`: sleep the jittered
exponential delay. -/
def backoff_step (retry_counter : Nat) (r : ℚ) (st : ClientState) :
    ClientState × List Event :=
  if 0 < retry_counter then
    ({ st with clock := st.clock + backoff_delay retry_counter r },
     [.backoffSleep (backoff_delay retry_counter r)])
  else (st, [])

/-- The rate-limit block of `request`: if the `sent_times` deque is truthy
and at quota capacity and the oldest recorded send is under 60 seconds old,
sleep for the remainder of those 60 seconds. -/
def rate_limit_step (cfg : Client) (st : ClientState) :
    ClientState × List Event :=
  if st.sent_times ≠ [] ∧ st.sent_times.length = cfg.queries_per_minute then
    let elapsed_since_earliest := st.clock - st.sent_times.headD 0
    if elapsed_since_earliest < 60 then
      ({ st with clock := st.clock + (60 - elapsed_since_earliest) },
       [.rateLimitSleep (60 - elapsed_since_earliest)])
    else (st, [])
  else (st, [])

/-- `Client.request`.  One logical call; retriable responses recurse with
the retry counter incremented and the original first-attempt time, exactly
as the source does (the recursive calls leave `dry_run` at its falsy
default).  The network oracle is consumed one entry per dispatch; `.stuck`
reports an exhausted oracle (the run was cut off, not a program outcome). -/
def request (cfg : Client) (url : String) (params : Params)
    (first_request_time : Option ℚ) (retry_counter : Nat)
    (post_json : Option String) (dry_run : Bool)
    (jitters : Nat → ℚ) (st : ClientState) (resps : List DispatchEnv) :
    ReqResult × ClientState × List Event :=
    let frt := first_request_time.getD st.clock
    if cfg.retry_timeout < st.clock - frt then (.error .timeout, st, [])
    else
      let s1 := backoff_step retry_counter (jitters retry_counter) st
      match generate_auth_url cfg url params with
      | .error e => (.error e, s1.1, s1.2)
      | .ok (authed_url, params2) =>
        let s2 := rate_limit_step cfg s1.1
        if dry_run then
          (.noResult, s2.1,
           s1.2 ++ s2.2 ++ [.printDryRun (cfg.base_url ++ authed_url) post_json])
        else
          match resps with
          | [] => (.stuck, s2.1, s1.2 ++ s2.2)
          | r :: rest =>
            let st3 : ClientState := { s2.1 with clock := s2.1.clock + r.netDelay }
            let evd : List Event :=
              [.dispatch (cfg.base_url ++ authed_url) post_json.isSome]
            match r.outcome with
            | .netTimeout => (.error .timeout, st3, s1.2 ++ s2.2 ++ evd)
            | .netError => (.error .transportError, st3, s1.2 ++ s2.2 ++ evd)
            | .resp status_code body =>
              if status_code ∈ RETRIABLE_STATUSES then
                let rec_out := request cfg url params2 (some frt) (retry_counter + 1)
                  post_json false jitters st3 rest
                (rec_out.1, rec_out.2.1, s1.2 ++ s2.2 ++ evd ++ rec_out.2.2)
              else
                match get_body status_code body with
                | .ok result =>
                  let t := st3.clock
                  (.success result,
                   { st3 with
                     sent_times := deque_append cfg.queries_per_minute st3.sent_times t },
                   s1.2 ++ s2.2 ++ evd ++ [.appendSent t])
                | .error e =>
                  if is_retriable_request_exc e then
                    if is_over_query_limit e && !cfg.retry_over_query_limit then
                      (.error e, st3, s1.2 ++ s2.2 ++ evd)
                    else
                      let rec_out := request cfg url params2 (some frt) (retry_counter + 1)
                        post_json false jitters st3 rest
                      (rec_out.1, rec_out.2.1, s1.2 ++ s2.2 ++ evd ++ rec_out.2.2)
                  else (.error e, st3, s1.2 ++ s2.2 ++ evd)
termination_by structural resps

/-- A top-level call on one dispatcher instance (fresh first-attempt time,
retry counter 0, live run). -/
structure Call where
  url : String
  params : Params
  post_json : Option String
  jitters : Nat → ℚ
  resps : List DispatchEnv

/-- A sequence of calls on one dispatcher instance, threading the shared
state (`sent_times` window and clock) through and concatenating the event
traces. -/
def runCalls (cfg : Client) (st : ClientState) : List Call → ClientState × List Event
  | [] => (st, [])
  | c :: cs =>
    let out := request cfg c.url c.params none 0 c.post_json false c.jitters st c.resps
    let out2 := runCalls cfg out.2.1 cs
    (out2.1, out.2.2 ++ out2.2)

/-- The timestamp recorded by an `appendSent` event. -/
def send_time : Event → Option ℚ
  | .appendSent t => some t
  | _ => none

/-- Whether an event is an HTTP dispatch. -/
def is_dispatch_event : Event → Bool
  | .dispatch _ _ => true
  | _ => false

/-- Whether an event is a rate-limit sleep. -/
def is_rate_limit_sleep : Event → Bool
  | .rateLimitSleep _ => true
  | _ => false

/-- The recorded send timestamps of an event trace, in order. -/
def sends (evs : List Event) : List ℚ :=
  evs.filterMap send_time

/-- Number of HTTP dispatches in an event trace. -/
def dispatch_count (evs : List Event) : Nat :=
  evs.countP is_dispatch_event

/-- Number of rate-limit sleeps in an event trace. -/
def rate_limit_sleep_count (evs : List Event) : Nat :=
  evs.countP is_rate_limit_sleep


/-- The last `n` elements of a list (the contents of a maxlen-`n` deque fed
by appends). -/
def lastN (n : Nat) (xs : List ℚ) : List ℚ := xs.drop (xs.length - n)

/-- `EnvOK jitters resps`: the random oracle yields numbers `≥ 0` and the
network never takes negative time — the well-formedness of an execution
environment (`random.random()` actually yields values in [0, 1)). -/
def EnvOK (jitters : Nat → ℚ) (resps : List DispatchEnv) : Prop :=
  (∀ k, 0 ≤ jitters k) ∧ ∀ r ∈ resps, 0 ≤ r.netDelay

/-- `GapOK Q S`: in the (chronologically sorted) send list `S`, any two
sends `Q` positions apart are at least 60 seconds apart — equivalently, no
trailing 60-second window contains more than `Q` sends. -/
def GapOK (Q : Nat) (S : List ℚ) : Prop :=
  ∀ i j (hi : i < S.length) (hj : j < S.length),
    i + Q ≤ j → S.get ⟨i, hi⟩ + 60 ≤ S.get ⟨j, hj⟩

/-! ### Concrete objects used in witnesses and counterexamples -/

/-- A dispatcher configured with key `"KEY"` against the default base URL
(retry-time budget 60 s, quota 40, quota retry disabled). -/
def cfgKeyed : Client := ⟨some "KEY", DEFAULT_BASE_URL, 60, 40, false⟩

/-- A dispatcher with no key against the default base URL. -/
def cfgNoKey : Client := ⟨none, DEFAULT_BASE_URL, 60, 40, false⟩

/-- A keyed dispatcher with `queries_per_minute = 0`. -/
def cfgQuota0 : Client := ⟨some "KEY", DEFAULT_BASE_URL, 60, 0, false⟩

/-- A keyed dispatcher with a per-minute quota of 1. -/
def cfgQuota1 : Client := ⟨some "KEY", DEFAULT_BASE_URL, 60, 1, false⟩

/-- A keyed dispatcher with quota retry enabled. -/
def cfgRetry429 : Client := ⟨some "KEY", DEFAULT_BASE_URL, 60, 40, true⟩

/-- The constantly-zero jitter oracle. -/
def zeroJitter : Nat → ℚ := fun _ => 0

/-! ### Order lemmas for the key sort -/

theorem chars_lt_asymm (a b : List Char) (h : chars_lt a b = true) : chars_lt b a = false := by
  induction a generalizing b with
  | nil =>
    cases b with
    | nil => simp [chars_lt] at h
    | cons y ys => simp [chars_lt]
  | cons x xs ih =>
    cases b with
    | nil => simp [chars_lt] at h
    | cons y ys =>
      simp only [chars_lt] at h ⊢
      rcases Nat.lt_trichotomy x.toNat y.toNat with hlt | heq | hgt
      · have h1 : ¬ y.toNat < x.toNat := by omega
        have h2 : ¬ y.toNat = x.toNat := by omega
        simp [h1, h2]
      · have h1 : ¬ x.toNat < y.toNat := by omega
        have h2 : ¬ y.toNat < x.toNat := by omega
        rw [if_neg h1, if_pos heq] at h
        rw [if_neg h2, if_pos heq.symm]
        exact ih ys h
      · have h1 : ¬ x.toNat < y.toNat := by omega
        have h2 : ¬ x.toNat = y.toNat := by omega
        rw [if_neg h1, if_neg h2] at h
        exact absurd h (by simp)

theorem chars_lt_trans (a b c : List Char) (hab : chars_lt a b = true)
    (hbc : chars_lt b c = true) : chars_lt a c = true := by
  induction a generalizing b c with
  | nil =>
    cases b with
    | nil => simp [chars_lt] at hab
    | cons y ys =>
      cases c with
      | nil => simp [chars_lt] at hbc
      | cons z zs => simp [chars_lt]
  | cons x xs ih =>
    cases b with
    | nil => simp [chars_lt] at hab
    | cons y ys =>
      cases c with
      | nil => simp [chars_lt] at hbc
      | cons z zs =>
        simp only [chars_lt] at hab hbc ⊢
        rcases Nat.lt_trichotomy x.toNat y.toNat with hxy | hxy | hxy <;>
          rcases Nat.lt_trichotomy y.toNat z.toNat with hyz | hyz | hyz
        · simp [show x.toNat < z.toNat by omega]
        · simp [show x.toNat < z.toNat by omega]
        · rw [if_neg (by omega : ¬ y.toNat < z.toNat), if_neg (by omega : ¬ y.toNat = z.toNat)] at hbc
          exact absurd hbc (by simp)
        · simp [show x.toNat < z.toNat by omega]
        · rw [if_neg (by omega : ¬ x.toNat < z.toNat), if_pos (by omega : x.toNat = z.toNat)]
          rw [if_neg (by omega : ¬ x.toNat < y.toNat), if_pos hxy] at hab
          rw [if_neg (by omega : ¬ y.toNat < z.toNat), if_pos hyz] at hbc
          exact ih ys zs hab hbc
        · rw [if_neg (by omega : ¬ y.toNat < z.toNat), if_neg (by omega : ¬ y.toNat = z.toNat)] at hbc
          exact absurd hbc (by simp)
        · rw [if_neg (by omega : ¬ x.toNat < y.toNat), if_neg (by omega : ¬ x.toNat = y.toNat)] at hab
          exact absurd hab (by simp)
        · rw [if_neg (by omega : ¬ x.toNat < y.toNat), if_neg (by omega : ¬ x.toNat = y.toNat)] at hab
          exact absurd hab (by simp)
        · rw [if_neg (by omega : ¬ x.toNat < y.toNat), if_neg (by omega : ¬ x.toNat = y.toNat)] at hab
          exact absurd hab (by simp)

theorem py_str_lt_asymm (a b : String) (h : py_str_lt a b = true) : py_str_lt b a = false :=
  chars_lt_asymm a.data b.data h

theorem py_str_lt_trans (a b c : String) (hab : py_str_lt a b = true)
    (hbc : py_str_lt b c = true) : py_str_lt a c = true :=
  chars_lt_trans a.data b.data c.data hab hbc

theorem mem_insert_by_key (p x : String × PVal) (l : List (String × PVal)) :
    x ∈ insert_by_key p l ↔ x = p ∨ x ∈ l := by
  induction l with
  | nil => simp [insert_by_key]
  | cons q qs ih =>
    simp only [insert_by_key]
    split_ifs with h
    · simp [or_comm, or_assoc, or_left_comm]
    · simp [ih, or_comm, or_assoc, or_left_comm]

theorem pairwise_insert_by_key (p : String × PVal) (l : List (String × PVal))
    (hl : List.Pairwise (fun a b => py_str_lt b.1 a.1 = false) l) :
    List.Pairwise (fun a b => py_str_lt b.1 a.1 = false) (insert_by_key p l) := by
  induction l with
  | nil => simp [insert_by_key]
  | cons q qs ih =>
    rw [List.pairwise_cons] at hl
    simp only [insert_by_key]
    split_ifs with h
    · rw [List.pairwise_cons]
      constructor
      · intro x hx
        rw [List.mem_cons] at hx
        rcases hx with rfl | hx
        · exact py_str_lt_asymm _ _ h
        · cases hq : py_str_lt x.1 p.1 with
          | false => rfl
          | true =>
            have h2 := py_str_lt_trans _ _ _ hq h
            rw [hl.1 x hx] at h2
            exact absurd h2 (by simp)
      · exact List.pairwise_cons.mpr hl
    · rw [List.pairwise_cons]
      refine ⟨fun x hx => ?_, ih hl.2⟩
      rw [mem_insert_by_key] at hx
      rcases hx with rfl | hx
      · simpa using h
      · exact hl.1 x hx

theorem sortByKey_pairwise (l : List (String × PVal)) :
    List.Pairwise (fun a b => py_str_lt b.1 a.1 = false) (sortByKey l) := by
  induction l with
  | nil => simp [sortByKey]
  | cons p ps ih => exact pairwise_insert_by_key p _ ih


/-! ### Claim C5 -/

/-- C5: given params `{"b": 2, "a": 1}` supplied as a dict and the configured
credential `"KEY"`, the built URL query string is exactly
`a=1&b=2&api_key=KEY` — parameters sorted lexicographically by key, the
credential appended last (and the caller's dict is returned unchanged). -/
theorem ors_C5_concrete_query :
    generate_auth_url cfgKeyed "/directions"
        (Params.dict [("b", PVal.int 2), ("a", PVal.int 1)])
      = .ok ("/directions?a=1&b=2&api_key=KEY",
             Params.dict [("b", PVal.int 2), ("a", PVal.int 1)]) := by
  decide

/-! ### Claim C10 -/

/-- C10: when `params` is a list of key/value pairs, the query string is
built from the pairs in the caller's order with the credential appended
last; only dict-typed params are sorted by key before encoding
(`sortByKey`, whose output is pairwise nondecreasing in the keys under
Python's lexicographic string order). -/
theorem ors_C10_order :
    (∀ (cfg : Client) (path : String) (l : List (String × PVal)) (k : String),
        cfg.key = some k → k ≠ "" →
        generate_auth_url cfg path (Params.list l)
          = (urlencode_params (l ++ [("api_key", PVal.str k)])).map
              (fun q => (path ++ "?" ++ q, Params.list (l ++ [("api_key", PVal.str k)]))))
    ∧ (∀ (cfg : Client) (path : String) (d : List (String × PVal)) (k : String),
        cfg.key = some k → k ≠ "" →
        generate_auth_url cfg path (Params.dict d)
          = (urlencode_params (sortByKey d ++ [("api_key", PVal.str k)])).map
              (fun q => (path ++ "?" ++ q, Params.dict d)))
    ∧ (∀ d : List (String × PVal),
        List.Pairwise (fun a b => py_str_lt b.1 a.1 = false) (sortByKey d)) := by
  refine ⟨?_, ?_, sortByKey_pairwise⟩ <;>
    · intro cfg path l k hk hne
      simp [generate_auth_url, hk, hne]

/-- C10 witness: a concrete list-typed params value is encoded in the given
(unsorted) order `b` before `a`, with `api_key` last. -/
theorem ors_C10_order_witness :
    generate_auth_url cfgKeyed "/p" (Params.list [("b", PVal.int 2), ("a", PVal.int 1)])
      = (urlencode_params [("b", PVal.int 2), ("a", PVal.int 1), ("api_key", PVal.str "KEY")]).map
          (fun q => ("/p" ++ "?" ++ q,
            Params.list [("b", PVal.int 2), ("a", PVal.int 1), ("api_key", PVal.str "KEY")])) :=
  ors_C10_order.1 cfgKeyed "/p" [("b", PVal.int 2), ("a", PVal.int 1)] "KEY" rfl (by decide)

/-! ### Claim C3 -/

/-- C3 counterexample: the auth-URL builder does NOT leave a list-typed
`params` argument unchanged — with a configured credential the
`("api_key", key)` pair is appended to the caller's list in place, so the
value coming back out of the call differs from the one passed in. -/
theorem ors_C3_mutation_cex :
    generate_auth_url cfgKeyed "/p" (Params.list [("a", PVal.int 1)])
      = .ok ("/p?a=1&api_key=KEY", Params.list [("a", PVal.int 1), ("api_key", PVal.str "KEY")])
    ∧ Params.list [("a", PVal.int 1), ("api_key", PVal.str "KEY")] ≠ Params.list [("a", PVal.int 1)] :=
  ⟨by decide, by decide⟩

/-- C3 amended: the builder is a deterministic function of its input value
(it is a pure Lean function), and a dict-typed `params` argument is left
unchanged; but a list-typed `params` with a configured credential comes
back with the `("api_key", key)` pair appended in place, which is what a
retry then re-encodes. -/
theorem ors_C3_amended :
    (∀ (cfg : Client) (path : String) (d : List (String × PVal)) (res : String × Params),
        generate_auth_url cfg path (Params.dict d) = .ok res → res.2 = Params.dict d)
    ∧ (∀ (cfg : Client) (path : String) (l : List (String × PVal)) (k : String)
        (res : String × Params), cfg.key = some k → k ≠ "" →
        generate_auth_url cfg path (Params.list l) = .ok res →
        res.2 = Params.list (l ++ [("api_key", PVal.str k)])) := by
  constructor
  · intro cfg path d res h
    rcases hk : cfg.key with _ | k
    · simp only [generate_auth_url, hk] at h
      by_cases hb : cfg.base_url ≠ DEFAULT_BASE_URL
      · rw [if_pos hb] at h
        rcases hu : urlencode_params (sortByKey d) with e | q <;> rw [hu] at h
        · simp [Except.map] at h
        · simp only [Except.map, Except.ok.injEq] at h
          subst h
          rfl
      · rw [if_neg hb] at h
        simp at h
    · simp only [generate_auth_url, hk] at h
      by_cases hke : k = ""
      · rw [if_pos hke] at h
        by_cases hb : cfg.base_url ≠ DEFAULT_BASE_URL
        · rw [if_pos hb] at h
          rcases hu : urlencode_params (sortByKey d) with e | q <;> rw [hu] at h
          · simp [Except.map] at h
          · simp only [Except.map, Except.ok.injEq] at h
            subst h
            rfl
        · rw [if_neg hb] at h
          simp at h
      · rw [if_neg hke] at h
        rcases hu : urlencode_params (sortByKey d ++ [("api_key", PVal.str k)]) with e | q <;>
          rw [hu] at h
        · simp [Except.map] at h
        · simp only [Except.map, Except.ok.injEq] at h
          subst h
          rfl
  · intro cfg path l k res hk hne h
    simp only [generate_auth_url, hk] at h
    rw [if_neg hne] at h
    rcases hu : urlencode_params (l ++ [("api_key", PVal.str k)]) with e | q <;> rw [hu] at h
    · simp [Except.map] at h
    · simp only [Except.map, Except.ok.injEq] at h
      subst h
      rfl

/-- C3 amended witness: the mutated list at a concrete input. -/
theorem ors_C3_amended_witness :
    (("/p?a=1&api_key=KEY", Params.list [("a", PVal.int 1), ("api_key", PVal.str "KEY")]) :
        String × Params).2
      = Params.list ([("a", PVal.int 1)] ++ [("api_key", PVal.str "KEY")]) :=
  ors_C3_amended.2 cfgKeyed "/p" [("a", PVal.int 1)] "KEY" _ rfl (by decide) (by decide)



/-! ### Error classification of the URL encoder -/

theorem unquote_part_error (p : List Char) (e : ReqError)
    (h : unquote_part p = .error e) : e = .invalidURL := by
  rcases p with _ | ⟨a, _ | ⟨b, rest⟩⟩
  · simp [unquote_part] at h
  · simp [unquote_part] at h
  · simp only [unquote_part] at h
    split_ifs at h with h1
    · rcases hx : hexVal a with _ | x <;> rcases hy : hexVal b with _ | y <;>
        simp only [hx, hy] at h
      · cases h
        rfl
      · cases h
        rfl
      · cases h
        rfl
      · split_ifs at h

theorem unquote_parts_error (l : List (List Char)) (e : ReqError)
    (h : unquote_parts l = .error e) : e = .invalidURL := by
  induction l with
  | nil => simp [unquote_parts] at h
  | cons p ps ih =>
    simp only [unquote_parts] at h
    rcases hp : unquote_part p with e2 | x <;> simp only [hp] at h
    · cases h
      exact unquote_part_error p _ hp
    · rcases hps : unquote_parts ps with e3 | xs <;> simp only [hps] at h
      · cases h
        exact ih hps
      · cases h

theorem unquote_unreserved_error (u : String) (e : ReqError)
    (h : unquote_unreserved u = .error e) : e = .invalidURL := by
  simp only [unquote_unreserved] at h
  rcases hs : split_on_percent u.data with _ | ⟨p0, rest⟩ <;> simp only [hs] at h
  · cases h
  · rcases hm : unquote_parts rest with e2 | parts <;> simp only [hm] at h
    · cases h
      exact unquote_parts_error rest _ hm
    · cases h

theorem urlencode_params_error (ps : List (String × PVal)) (e : ReqError)
    (h : urlencode_params ps = .error e) : e = .invalidURL :=
  unquote_unreserved_error _ e h

theorem backoff_step_sent_times (rc : Nat) (r : ℚ) (st : ClientState) :
    (backoff_step rc r st).1.sent_times = st.sent_times := by
  simp only [backoff_step]
  split_ifs <;> rfl

theorem rate_limit_step_sent_times (cfg : Client) (st : ClientState) :
    (rate_limit_step cfg st).1.sent_times = st.sent_times := by
  simp only [rate_limit_step]
  split_ifs <;> rfl

theorem backoff_step_clock_le (rc : Nat) (r : ℚ) (st : ClientState) (hr : 0 ≤ r) :
    st.clock ≤ (backoff_step rc r st).1.clock := by
  simp only [backoff_step]
  split_ifs with h
  · simp only
    have : 0 ≤ backoff_delay rc r := by
      unfold backoff_delay
      positivity
    linarith
  · exact le_refl _

theorem rate_limit_step_clock_le (cfg : Client) (st : ClientState) :
    st.clock ≤ (rate_limit_step cfg st).1.clock := by
  simp only [rate_limit_step]
  split_ifs with h1 h2
  · simp only
    linarith
  · exact le_refl _
  · exact le_refl _

theorem rate_limit_step_full_clock (cfg : Client) (st : ClientState)
    (hne : st.sent_times ≠ []) (hlen : st.sent_times.length = cfg.queries_per_minute) :
    st.sent_times.headD 0 + 60 ≤ (rate_limit_step cfg st).1.clock := by
  simp only [rate_limit_step, if_pos (And.intro hne hlen)]
  split_ifs with h2
  · simp only
    linarith
  · linarith

theorem dispatch_count_backoff (rc : Nat) (r : ℚ) (st : ClientState) :
    dispatch_count (backoff_step rc r st).2 = 0 := by
  simp only [backoff_step]
  split_ifs <;> simp [dispatch_count, is_dispatch_event]

theorem dispatch_count_rate_limit (cfg : Client) (st : ClientState) :
    dispatch_count (rate_limit_step cfg st).2 = 0 := by
  simp only [rate_limit_step]
  split_ifs <;> simp [dispatch_count, is_dispatch_event]

theorem sends_backoff (rc : Nat) (r : ℚ) (st : ClientState) :
    sends (backoff_step rc r st).2 = [] := by
  simp only [backoff_step]
  split_ifs <;> simp [sends, send_time]

theorem sends_rate_limit (cfg : Client) (st : ClientState) :
    sends (rate_limit_step cfg st).2 = [] := by
  simp only [rate_limit_step]
  split_ifs <;> simp [sends, send_time]

theorem generate_auth_url_no_key (cfg : Client) (path : String) (params : Params)
    (hk : cfg.key = none) (hb : cfg.base_url = DEFAULT_BASE_URL) :
    generate_auth_url cfg path params = .error .valueError := by
  simp [generate_auth_url, hk, hb]

/-! ### Claim C6 -/

/-- C6: with no credential configured and the default production base URL,
`request` fails with the configuration error (`ValueError` in the source)
before any network dispatch is attempted — the event trace contains no
dispatch; and with a non-default base URL the URL builder never raises the
configuration error, so the call proceeds without a token. -/
theorem ors_C6_config_error :
    (∀ (cfg : Client) (url : String) (params : Params) (frt : Option ℚ) (rc : Nat)
        (pj : Option String) (dr : Bool) (jit : Nat → ℚ) (st : ClientState)
        (resps : List DispatchEnv),
        cfg.key = none → cfg.base_url = DEFAULT_BASE_URL →
        ¬ (cfg.retry_timeout < st.clock - frt.getD st.clock) →
        (request cfg url params frt rc pj dr jit st resps).1 = .error .valueError
        ∧ dispatch_count (request cfg url params frt rc pj dr jit st resps).2.2 = 0)
    ∧ (∀ (cfg : Client) (path : String) (params : Params),
        cfg.key = none → cfg.base_url ≠ DEFAULT_BASE_URL →
        generate_auth_url cfg path params ≠ .error .valueError) := by
  constructor
  · intro cfg url params frt rc pj dr jit st resps hk hb hdl
    rw [request, if_neg hdl, generate_auth_url_no_key cfg url params hk hb]
    exact ⟨rfl, dispatch_count_backoff rc (jit rc) st⟩
  · intro cfg path params hk hb
    simp only [generate_auth_url, hk, if_pos hb]
    rcases hu : urlencode_params (match params with | .dict d => sortByKey d | .list l => l)
      with e | q
    · have he := urlencode_params_error _ _ hu
      subst he
      simp [Except.map]
    · simp [Except.map]

/-- C6 witness: a keyless client against the default host fails with the
configuration error and performs no dispatch, on a concrete call. -/
theorem ors_C6_config_error_witness :
    (request cfgNoKey "/directions" (Params.dict []) none 0 none false zeroJitter ⟨0, []⟩
        [⟨0, .resp 200 "ok"⟩]).1 = .error .valueError
    ∧ dispatch_count (request cfgNoKey "/directions" (Params.dict []) none 0 none false zeroJitter
        ⟨0, []⟩ [⟨0, .resp 200 "ok"⟩]).2.2 = 0 :=
  ors_C6_config_error.1 cfgNoKey "/directions" (Params.dict []) none 0 none false zeroJitter
    ⟨0, []⟩ [⟨0, .resp 200 "ok"⟩] rfl rfl (by norm_num [cfgNoKey, Option.getD])


/-! ### Claim C4 -/

/-- C4: the first-retry backoff sleep.  The claim (and the code's own
comment, which describes `0.5 * 1.5 ** i` "starting at 0.5s when
retry_counter=1" jittered by 50%) puts the first retry sleep in
[0.25 s, 0.75 s); the code instead computes `1.5 ** (retry_counter - 1)`
without the 0.5 factor, so with jitter 0.5 the first retry sleeps exactly
1 second — outside the claimed interval — and in general the first-retry
sleep ranges over [0.5 s, 1.5 s). -/
theorem ors_C4_backoff_bug :
    backoff_delay 1 (1/2) = 1
    ∧ ¬ (backoff_delay 1 (1/2) < 3/4)
    ∧ (∀ r : ℚ, 0 ≤ r → r < 1 → 1/2 ≤ backoff_delay 1 r ∧ backoff_delay 1 r < 3/2)
    ∧ (request cfgKeyed "/p" (Params.dict []) (some 0) 1 none false (fun _ => 1/2) ⟨0, []⟩
        [⟨0, .resp 200 "ok"⟩]).2.2.head? = some (.backoffSleep 1) := by
  refine ⟨by norm_num [backoff_delay], by norm_num [backoff_delay], ?_, ?_⟩
  · intro r h0 h1
    constructor <;> simp only [backoff_delay, pow_zero, one_mul] <;> linarith
  · rw [request]
    norm_num +decide [cfgKeyed, backoff_step, backoff_delay, rate_limit_step, generate_auth_url,
      urlencode_params, urlencode, unquote_unreserved, split_on_percent, unquote_part,
      quote_plus, py_str, sortByKey, normalize_for_urlencode, get_body, RETRIABLE_STATUSES,
      DEFAULT_BASE_URL, deque_append]



/-- C4 witness: the general first-retry bound of the code applied at the
midpoint jitter. -/
theorem ors_C4_backoff_bug_witness :
    (1:ℚ)/2 ≤ backoff_delay 1 (1/2) ∧ backoff_delay 1 (1/2) < 3/2 :=
  ors_C4_backoff_bug.2.2.1 (1/2) (by norm_num) (by norm_num)

theorem request_429_disabled :
    ∀ (cfg : Client) (url : String) (params : Params) (frt : Option ℚ) (rc : Nat)
      (pj : Option String) (jit : Nat → ℚ) (st : ClientState) (r : DispatchEnv)
      (rest : List DispatchEnv) (b : String) (au : String) (p2 : Params),
      cfg.retry_over_query_limit = false →
      ¬ (cfg.retry_timeout < st.clock - frt.getD st.clock) →
      generate_auth_url cfg url params = .ok (au, p2) →
      r.outcome = .resp 429 b →
      (request cfg url params frt rc pj false jit st (r :: rest)).1
          = .error (.overQueryLimit "429" b)
      ∧ dispatch_count (request cfg url params frt rc pj false jit st (r :: rest)).2.2 = 1 := by
  intro cfg url params frt rc pj jit st r rest b au p2 hflag hdl hau ho
  rw [request, if_neg hdl, hau]
  simp only [ho]
  have h429 : ¬ (429 ∈ RETRIABLE_STATUSES) := by decide
  rw [if_neg h429]
  have hgb : get_body 429 b = .error (.overQueryLimit "429" b) := by
    simp only [get_body, if_pos rfl]
    rfl
  rw [hgb]
  simp only [is_retriable_request_exc, is_over_query_limit, hflag, Bool.not_false,
    Bool.and_true, if_pos rfl]
  constructor
  · rfl
  · have h1 := dispatch_count_backoff rc (jit rc) st
    have h2 := dispatch_count_rate_limit cfg (backoff_step rc (jit rc) st).1
    simp only [dispatch_count] at h1 h2
    simp [dispatch_count, List.countP_append, is_dispatch_event, h1, h2]

theorem generate_auth_url_error_map (path : String) (pv : Params)
    (items : List (String × PVal)) (e : ReqError)
    (h : (urlencode_params items).map (fun q => (path ++ "?" ++ q, pv)) = .error e) :
    e = .invalidURL := by
  rcases hu : urlencode_params items with e2 | q <;> rw [hu] at h
  · simp only [Except.map] at h
    cases h
    exact urlencode_params_error _ _ hu
  · simp [Except.map] at h

theorem generate_auth_url_error_cases (cfg : Client) (path : String) (params : Params)
    (e : ReqError) (h : generate_auth_url cfg path params = .error e) :
    e = .valueError ∨ e = .invalidURL := by
  rcases hk : cfg.key with _ | k
  · simp only [generate_auth_url, hk] at h
    split_ifs at h with hb
    · exact Or.inr (generate_auth_url_error_map _ _ _ _ h)
    · cases h
      exact Or.inl rfl
  · simp only [generate_auth_url, hk] at h
    by_cases hke : k = ""
    · rw [if_pos hke] at h
      split_ifs at h with hb
      · exact Or.inr (generate_auth_url_error_map _ _ _ _ h)
      · cases h
        exact Or.inl rfl
    · rw [if_neg hke] at h
      exact Or.inr (generate_auth_url_error_map _ _ _ _ h)

theorem request_no_oql_surface (resps : List DispatchEnv) :
    ∀ (cfg : Client) (url : String) (params : Params) (frt : Option ℚ) (rc : Nat)
      (pj : Option String) (dr : Bool) (jit : Nat → ℚ) (st : ClientState) (s b : String),
      cfg.retry_over_query_limit = true →
      (request cfg url params frt rc pj dr jit st resps).1 ≠ .error (.overQueryLimit s b) := by
  induction resps with
  | nil =>
    intro cfg url params frt rc pj dr jit st s b hflag
    rw [request]
    by_cases hdl : cfg.retry_timeout < st.clock - frt.getD st.clock
    · rw [if_pos hdl]
      simp
    · rw [if_neg hdl]
      rcases hau : generate_auth_url cfg url params with e | ⟨au, p2⟩ <;> simp only [hau]
      · rcases generate_auth_url_error_cases cfg url params e hau with rfl | rfl <;> simp
      · by_cases hdr : dr = true <;> [rw [if_pos hdr]; rw [if_neg hdr]] <;> simp
  | cons r rest ih =>
    intro cfg url params frt rc pj dr jit st s b hflag
    rw [request]
    by_cases hdl : cfg.retry_timeout < st.clock - frt.getD st.clock
    · rw [if_pos hdl]
      simp
    · rw [if_neg hdl]
      rcases hau : generate_auth_url cfg url params with e | ⟨au, p2⟩ <;> simp only [hau]
      · rcases generate_auth_url_error_cases cfg url params e hau with rfl | rfl <;> simp
      · by_cases hdr : dr = true <;> [rw [if_pos hdr]; rw [if_neg hdr]]
        · simp
        · rcases ho : r.outcome with ⟨status, body⟩ | _ | _ <;> simp only [ho]
          · by_cases hs : status ∈ RETRIABLE_STATUSES <;>
              [rw [if_pos hs]; rw [if_neg hs]]
            · exact ih cfg url p2 _ _ pj false jit _ s b hflag
            · rcases hgb : get_body status body with e | b2 <;> simp only [hgb]
              · rcases e with _ | _ | _ | _ | ⟨s2, b2⟩ | ⟨s2, b2⟩
                · simp [is_retriable_request_exc]
                · simp [is_retriable_request_exc]
                · simp [is_retriable_request_exc]
                · simp [is_retriable_request_exc]
                · simp only [is_retriable_request_exc, is_over_query_limit, hflag,
                    Bool.not_true, Bool.and_false, Bool.false_eq_true, if_false]
                  exact ih cfg url p2 _ _ pj false jit _ s b hflag
                · simp [is_retriable_request_exc]
              · simp
          · simp
          · simp

theorem request_429_retry :
    ∀ (cfg : Client) (url : String) (params : Params) (frt : Option ℚ) (rc : Nat)
      (pj : Option String) (jit : Nat → ℚ) (st : ClientState) (r : DispatchEnv)
      (rest : List DispatchEnv) (b au : String) (p2 : Params),
      cfg.retry_over_query_limit = true →
      ¬ (cfg.retry_timeout < st.clock - frt.getD st.clock) →
      generate_auth_url cfg url params = .ok (au, p2) →
      r.outcome = .resp 429 b →
      request cfg url params frt rc pj false jit st (r :: rest)
        = ((request cfg url p2 (some (frt.getD st.clock)) (rc + 1) pj false jit
              ⟨(rate_limit_step cfg (backoff_step rc (jit rc) st).1).1.clock + r.netDelay,
               (rate_limit_step cfg (backoff_step rc (jit rc) st).1).1.sent_times⟩ rest).1,
           (request cfg url p2 (some (frt.getD st.clock)) (rc + 1) pj false jit
              ⟨(rate_limit_step cfg (backoff_step rc (jit rc) st).1).1.clock + r.netDelay,
               (rate_limit_step cfg (backoff_step rc (jit rc) st).1).1.sent_times⟩ rest).2.1,
           (backoff_step rc (jit rc) st).2
             ++ (rate_limit_step cfg (backoff_step rc (jit rc) st).1).2
             ++ [.dispatch (cfg.base_url ++ au) pj.isSome]
             ++ (request cfg url p2 (some (frt.getD st.clock)) (rc + 1) pj false jit
                  ⟨(rate_limit_step cfg (backoff_step rc (jit rc) st).1).1.clock + r.netDelay,
                   (rate_limit_step cfg (backoff_step rc (jit rc) st).1).1.sent_times⟩ rest).2.2) := by
  intro cfg url params frt rc pj jit st r rest b au p2 hflag hdl hau ho
  rw [request, if_neg hdl, hau]
  simp only [ho]
  have h429 : ¬ (429 ∈ RETRIABLE_STATUSES) := by decide
  rw [if_neg h429]
  have hgb : get_body 429 b = .error (.overQueryLimit "429" b) := by
    simp only [get_body, if_pos rfl]
    rfl
  rw [hgb]
  simp only [is_retriable_request_exc, is_over_query_limit, hflag, Bool.not_true,
    Bool.and_false, Bool.false_eq_true, if_false, if_true, List.append_assoc]

/-! ### Claim C7 -/

/-- C7: handling of HTTP 429.  (1) With the quota-retry flag disabled, a 429
response surfaces immediately as the over-query-limit error after exactly
one dispatch — no retry.  (2) With the flag enabled, no run of `request`
ever returns the over-query-limit error to the caller.  (3) With the flag
enabled, a 429 response makes `request` recurse with the retry counter
incremented by one and the original first-attempt timestamp. -/
theorem ors_C7_quota_handling :
    (∀ (cfg : Client) (url : String) (params : Params) (frt : Option ℚ) (rc : Nat)
        (pj : Option String) (jit : Nat → ℚ) (st : ClientState) (r : DispatchEnv)
        (rest : List DispatchEnv) (b au : String) (p2 : Params),
        cfg.retry_over_query_limit = false →
        ¬ (cfg.retry_timeout < st.clock - frt.getD st.clock) →
        generate_auth_url cfg url params = .ok (au, p2) →
        r.outcome = .resp 429 b →
        (request cfg url params frt rc pj false jit st (r :: rest)).1
            = .error (.overQueryLimit "429" b)
        ∧ dispatch_count (request cfg url params frt rc pj false jit st (r :: rest)).2.2 = 1)
    ∧ (∀ (resps : List DispatchEnv) (cfg : Client) (url : String) (params : Params)
        (frt : Option ℚ) (rc : Nat) (pj : Option String) (dr : Bool) (jit : Nat → ℚ)
        (st : ClientState) (s b : String),
        cfg.retry_over_query_limit = true →
        (request cfg url params frt rc pj dr jit st resps).1 ≠ .error (.overQueryLimit s b))
    ∧ (∀ (cfg : Client) (url : String) (params : Params) (frt : Option ℚ) (rc : Nat)
        (pj : Option String) (jit : Nat → ℚ) (st : ClientState) (r : DispatchEnv)
        (rest : List DispatchEnv) (b au : String) (p2 : Params),
        cfg.retry_over_query_limit = true →
        ¬ (cfg.retry_timeout < st.clock - frt.getD st.clock) →
        generate_auth_url cfg url params = .ok (au, p2) →
        r.outcome = .resp 429 b →
        request cfg url params frt rc pj false jit st (r :: rest)
          = ((request cfg url p2 (some (frt.getD st.clock)) (rc + 1) pj false jit
                ⟨(rate_limit_step cfg (backoff_step rc (jit rc) st).1).1.clock + r.netDelay,
                 (rate_limit_step cfg (backoff_step rc (jit rc) st).1).1.sent_times⟩ rest).1,
             (request cfg url p2 (some (frt.getD st.clock)) (rc + 1) pj false jit
                ⟨(rate_limit_step cfg (backoff_step rc (jit rc) st).1).1.clock + r.netDelay,
                 (rate_limit_step cfg (backoff_step rc (jit rc) st).1).1.sent_times⟩ rest).2.1,
             (backoff_step rc (jit rc) st).2
               ++ (rate_limit_step cfg (backoff_step rc (jit rc) st).1).2
               ++ [.dispatch (cfg.base_url ++ au) pj.isSome]
               ++ (request cfg url p2 (some (frt.getD st.clock)) (rc + 1) pj false jit
                    ⟨(rate_limit_step cfg (backoff_step rc (jit rc) st).1).1.clock + r.netDelay,
                     (rate_limit_step cfg (backoff_step rc (jit rc) st).1).1.sent_times⟩ rest).2.2)) :=
  ⟨request_429_disabled, request_no_oql_surface, request_429_retry⟩

/-- C7 witness: with quota retry disabled, a concrete 429 run surfaces the
over-query-limit error after exactly one dispatch. -/
theorem ors_C7_quota_handling_witness :
    (request cfgKeyed "/p" (Params.dict []) none 0 none false zeroJitter ⟨0, []⟩
        [⟨0, .resp 429 "limit"⟩]).1 = .error (.overQueryLimit "429" "limit")
    ∧ dispatch_count (request cfgKeyed "/p" (Params.dict []) none 0 none false zeroJitter ⟨0, []⟩
        [⟨0, .resp 429 "limit"⟩]).2.2 = 1 :=
  ors_C7_quota_handling.1 cfgKeyed "/p" (Params.dict []) none 0 none zeroJitter ⟨0, []⟩
    ⟨0, .resp 429 "limit"⟩ [] "limit" "/p?api_key=KEY" (Params.dict [])
    rfl (by norm_num [cfgKeyed, Option.getD]) (by decide) rfl



/-! ### Claim C9 -/

/-- C9: dry-run mode still performs the deadline check (an exceeded budget
raises Timeout), still builds the auth URL (a missing credential with the
default base URL raises the configuration error instead of printing), and
still performs the backoff sleep and the rate-limit wait; only the HTTP
dispatch and response handling are skipped — the trace has no dispatch and
no recorded send, the send window is unchanged, the would-be URL is printed
and the call returns no value. -/
theorem ors_C9_dry_run :
    (∀ (cfg : Client) (url : String) (params : Params) (frt : Option ℚ) (rc : Nat)
        (pj : Option String) (jit : Nat → ℚ) (st : ClientState) (resps : List DispatchEnv),
        cfg.retry_timeout < st.clock - frt.getD st.clock →
        request cfg url params frt rc pj true jit st resps = (.error .timeout, st, []))
    ∧ (∀ (cfg : Client) (url : String) (params : Params) (frt : Option ℚ) (rc : Nat)
        (pj : Option String) (jit : Nat → ℚ) (st : ClientState) (resps : List DispatchEnv),
        cfg.key = none → cfg.base_url = DEFAULT_BASE_URL →
        ¬ (cfg.retry_timeout < st.clock - frt.getD st.clock) →
        (request cfg url params frt rc pj true jit st resps).1 = .error .valueError)
    ∧ (∀ (cfg : Client) (url : String) (params : Params) (frt : Option ℚ) (rc : Nat)
        (pj : Option String) (jit : Nat → ℚ) (st : ClientState) (resps : List DispatchEnv)
        (au : String) (p2 : Params),
        ¬ (cfg.retry_timeout < st.clock - frt.getD st.clock) →
        generate_auth_url cfg url params = .ok (au, p2) →
        request cfg url params frt rc pj true jit st resps
          = (.noResult, (rate_limit_step cfg (backoff_step rc (jit rc) st).1).1,
             (backoff_step rc (jit rc) st).2
               ++ (rate_limit_step cfg (backoff_step rc (jit rc) st).1).2
               ++ [.printDryRun (cfg.base_url ++ au) pj])
        ∧ dispatch_count (request cfg url params frt rc pj true jit st resps).2.2 = 0
        ∧ sends (request cfg url params frt rc pj true jit st resps).2.2 = []
        ∧ (request cfg url params frt rc pj true jit st resps).2.1.sent_times
            = st.sent_times) := by
  refine ⟨?_, ?_, ?_⟩
  · intro cfg url params frt rc pj jit st resps hdl
    rw [request, if_pos hdl]
  · intro cfg url params frt rc pj jit st resps hk hb hdl
    rw [request, if_neg hdl, generate_auth_url_no_key cfg url params hk hb]
  · intro cfg url params frt rc pj jit st resps au p2 hdl hau
    have heq : request cfg url params frt rc pj true jit st resps
        = (.noResult, (rate_limit_step cfg (backoff_step rc (jit rc) st).1).1,
           (backoff_step rc (jit rc) st).2
             ++ (rate_limit_step cfg (backoff_step rc (jit rc) st).1).2
             ++ [.printDryRun (cfg.base_url ++ au) pj]) := by
      rw [request, if_neg hdl, hau]
      cases resps <;> simp [List.append_assoc]
    refine ⟨heq, ?_, ?_, ?_⟩ <;> rw [heq]
    · have h1 := dispatch_count_backoff rc (jit rc) st
      have h2 := dispatch_count_rate_limit cfg (backoff_step rc (jit rc) st).1
      simp only [dispatch_count] at h1 h2
      simp [dispatch_count, List.countP_append, is_dispatch_event, h1, h2]
    · have h1 := sends_backoff rc (jit rc) st
      have h2 := sends_rate_limit cfg (backoff_step rc (jit rc) st).1
      simp only [sends] at h1 h2
      simp [sends, List.filterMap_append, send_time, h1, h2]
    · rw [rate_limit_step_sent_times, backoff_step_sent_times]

/-- C9 witness: a concrete dry-run call with params `{"x": 1}` and path
`/test` returns no value and only prints, needing no network oracle. -/
theorem ors_C9_dry_run_witness :
    request cfgKeyed "/test" (Params.dict [("x", PVal.int 1)]) none 0 none true zeroJitter
        ⟨0, []⟩ []
      = (.noResult, (rate_limit_step cfgKeyed (backoff_step 0 (zeroJitter 0) ⟨0, []⟩).1).1,
         (backoff_step 0 (zeroJitter 0) ⟨0, []⟩).2
           ++ (rate_limit_step cfgKeyed (backoff_step 0 (zeroJitter 0) ⟨0, []⟩).1).2
           ++ [.printDryRun (cfgKeyed.base_url ++ "/test?x=1&api_key=KEY") none]) :=
  (ors_C9_dry_run.2.2 cfgKeyed "/test" (Params.dict [("x", PVal.int 1)]) none 0 none zeroJitter
    ⟨0, []⟩ [] "/test?x=1&api_key=KEY" (Params.dict [("x", PVal.int 1)])
    (by norm_num [cfgKeyed, Option.getD]) (by decide)).1


/-! ### Claim C1 -/

/-- C1 counterexample: the total wall-clock time of a retry chain CAN exceed
the retry-time budget, and a run whose budget is exceeded mid-attempt does
NOT fail with Timeout: with a 60 s budget, a single attempt whose dispatch
takes 100 s ends in success at wall-clock time 100 > 60. -/
theorem ors_C1_budget_cex :
    (request cfgKeyed "/d" (Params.dict []) none 0 none false zeroJitter ⟨0, []⟩
        [⟨100, .resp 200 "ok"⟩]).1 = .success "ok"
    ∧ (request cfgKeyed "/d" (Params.dict []) none 0 none false zeroJitter ⟨0, []⟩
        [⟨100, .resp 200 "ok"⟩]).2.1.clock = 100
    ∧ ¬ ((100 : ℚ) - 0 ≤ cfgKeyed.retry_timeout) := by
  refine ⟨?_, ?_, by norm_num [cfgKeyed]⟩ <;>
    · rw [request]
      norm_num +decide [cfgKeyed, zeroJitter, backoff_step, backoff_delay, rate_limit_step,
        generate_auth_url, urlencode_params, urlencode, unquote_unreserved, split_on_percent,
        unquote_part, quote_plus, py_str, sortByKey, normalize_for_urlencode, get_body,
        RETRIABLE_STATUSES, DEFAULT_BASE_URL, deque_append]

theorem request_all_503_no_success (resps : List DispatchEnv) :
    ∀ (cfg : Client) (url : String) (params : Params) (frt : Option ℚ) (rc : Nat)
      (pj : Option String) (jit : Nat → ℚ) (st : ClientState),
      (∀ r ∈ resps, ∃ b, r.outcome = .resp 503 b) →
      ∀ b2 : String,
        (request cfg url params frt rc pj false jit st resps).1 ≠ .success b2 := by
  induction resps with
  | nil =>
    intro cfg url params frt rc pj jit st hall b2
    rw [request]
    by_cases hdl : cfg.retry_timeout < st.clock - frt.getD st.clock
    · rw [if_pos hdl]
      simp
    · rw [if_neg hdl]
      rcases hau : generate_auth_url cfg url params with e | ⟨au, p2⟩ <;> simp only [hau] <;> simp
  | cons r rest ih =>
    intro cfg url params frt rc pj jit st hall b2
    obtain ⟨b, hb⟩ := hall r (List.mem_cons_self r rest)
    rw [request]
    by_cases hdl : cfg.retry_timeout < st.clock - frt.getD st.clock
    · rw [if_pos hdl]
      simp
    · rw [if_neg hdl]
      rcases hau : generate_auth_url cfg url params with e | ⟨au, p2⟩ <;> simp only [hau]
      · simp
      · simp only [hb, Bool.false_eq_true, if_false]
        have h503 : (503 : Nat) ∈ RETRIABLE_STATUSES := by decide
        rw [if_pos h503]
        exact ih cfg url p2 _ _ pj jit _ (fun r2 hr2 => hall r2 (List.mem_cons_of_mem r hr2)) b2

/-- C1 amended: the deadline is enforced only at the start of each attempt:
an attempt entered with elapsed time over the budget fails immediately with
Timeout — no sleep, no dispatch — regardless of retriability, and a chain of
retriable (503) responses can never end in success, so it keeps being
re-checked against the deadline; but the sleeps and dispatch of the final
attempt run after the check, so the total wall-clock time may overshoot the
budget by the duration of that attempt. -/
theorem ors_C1_amended :
    (∀ (cfg : Client) (url : String) (params : Params) (frt : Option ℚ) (rc : Nat)
        (pj : Option String) (dr : Bool) (jit : Nat → ℚ) (st : ClientState)
        (resps : List DispatchEnv),
        cfg.retry_timeout < st.clock - frt.getD st.clock →
        request cfg url params frt rc pj dr jit st resps = (.error .timeout, st, []))
    ∧ (∀ (resps : List DispatchEnv) (cfg : Client) (url : String) (params : Params)
        (frt : Option ℚ) (rc : Nat) (pj : Option String) (jit : Nat → ℚ) (st : ClientState),
        (∀ r ∈ resps, ∃ b, r.outcome = .resp 503 b) →
        ∀ b2 : String,
          (request cfg url params frt rc pj false jit st resps).1 ≠ .success b2) := by
  constructor
  · intro cfg url params frt rc pj dr jit st resps hdl
    rw [request, if_pos hdl]
  · exact request_all_503_no_success

/-- C1 witness: an attempt entered at elapsed time 100 s with a 60 s budget
fails immediately with Timeout. -/
theorem ors_C1_amended_witness :
    request cfgKeyed "/d" (Params.dict []) (some 0) 3 none false zeroJitter ⟨100, []⟩ []
      = (.error .timeout, ⟨100, []⟩, []) :=
  ors_C1_amended.1 cfgKeyed "/d" (Params.dict []) (some 0) 3 none false zeroJitter ⟨100, []⟩ []
    (by norm_num [cfgKeyed, Option.getD])


theorem rate_limit_step_empty (cfg : Client) (st : ClientState) (h : st.sent_times = []) :
    rate_limit_step cfg st = (st, []) := by
  simp [rate_limit_step, h]

theorem rate_limit_sleep_count_backoff (rc : Nat) (r : ℚ) (st : ClientState) :
    rate_limit_sleep_count (backoff_step rc r st).2 = 0 := by
  simp only [backoff_step]
  split_ifs <;> simp [rate_limit_sleep_count, is_rate_limit_sleep]

theorem request_quota0 (resps : List DispatchEnv) :
    ∀ (cfg : Client) (url : String) (params : Params) (frt : Option ℚ) (rc : Nat)
      (pj : Option String) (dr : Bool) (jit : Nat → ℚ) (st : ClientState),
      cfg.queries_per_minute = 0 → st.sent_times = [] →
      (request cfg url params frt rc pj dr jit st resps).2.1.sent_times = []
      ∧ rate_limit_sleep_count (request cfg url params frt rc pj dr jit st resps).2.2 = 0 := by
  induction resps with
  | nil =>
    intro cfg url params frt rc pj dr jit st hq hst
    rw [request]
    by_cases hdl : cfg.retry_timeout < st.clock - frt.getD st.clock
    · rw [if_pos hdl]
      exact ⟨hst, rfl⟩
    · rw [if_neg hdl]
      have hemp : (backoff_step rc (jit rc) st).1.sent_times = [] :=
        (backoff_step_sent_times rc (jit rc) st).trans hst
      rcases hau : generate_auth_url cfg url params with e | ⟨au, p2⟩ <;> simp only [hau]
      · exact ⟨hemp, rate_limit_sleep_count_backoff rc (jit rc) st⟩
      · rw [rate_limit_step_empty cfg _ hemp]
        by_cases hdr : dr = true <;> [rw [if_pos hdr]; rw [if_neg hdr]] <;>
          refine ⟨hemp, ?_⟩ <;>
          · have h1 := rate_limit_sleep_count_backoff rc (jit rc) st
            simp only [rate_limit_sleep_count] at h1 ⊢
            simp [List.countP_append, h1, is_rate_limit_sleep]
  | cons r rest ih =>
    intro cfg url params frt rc pj dr jit st hq hst
    rw [request]
    by_cases hdl : cfg.retry_timeout < st.clock - frt.getD st.clock
    · rw [if_pos hdl]
      exact ⟨hst, rfl⟩
    · rw [if_neg hdl]
      have hemp : (backoff_step rc (jit rc) st).1.sent_times = [] :=
        (backoff_step_sent_times rc (jit rc) st).trans hst
      have h1 := rate_limit_sleep_count_backoff rc (jit rc) st
      rcases hau : generate_auth_url cfg url params with e | ⟨au, p2⟩ <;> simp only [hau]
      · exact ⟨hemp, h1⟩
      · rw [rate_limit_step_empty cfg _ hemp]
        by_cases hdr : dr = true <;> [rw [if_pos hdr]; rw [if_neg hdr]]
        · refine ⟨hemp, ?_⟩
          simp only [rate_limit_sleep_count] at h1 ⊢
          simp [List.countP_append, h1, is_rate_limit_sleep]
        · rcases ho : r.outcome with ⟨status, body⟩ | _ | _ <;> simp only [ho]
          · by_cases hs : status ∈ RETRIABLE_STATUSES <;> [rw [if_pos hs]; rw [if_neg hs]]
            · have hrec := ih cfg url p2 (some (frt.getD st.clock)) (rc + 1) pj false jit
                ⟨(backoff_step rc (jit rc) st).1.clock + r.netDelay,
                 (backoff_step rc (jit rc) st).1.sent_times⟩ hq hemp
              refine ⟨?_, ?_⟩
              · exact hrec.1
              · have h2 := hrec.2
                simp only [rate_limit_sleep_count] at h1 h2 ⊢
                simp [List.countP_append, h1, h2, is_rate_limit_sleep]
            · rcases hgb : get_body status body with e | b2 <;> simp only [hgb]
              · rcases e with _ | _ | _ | _ | ⟨s2, b2⟩ | ⟨s2, b2⟩
                · refine ⟨hemp, ?_⟩
                  simp only [rate_limit_sleep_count] at h1 ⊢
                  simp [List.countP_append, h1, is_rate_limit_sleep, is_retriable_request_exc]
                · refine ⟨hemp, ?_⟩
                  simp only [rate_limit_sleep_count] at h1 ⊢
                  simp [List.countP_append, h1, is_rate_limit_sleep, is_retriable_request_exc]
                · refine ⟨hemp, ?_⟩
                  simp only [rate_limit_sleep_count] at h1 ⊢
                  simp [List.countP_append, h1, is_rate_limit_sleep, is_retriable_request_exc]
                · refine ⟨hemp, ?_⟩
                  simp only [rate_limit_sleep_count] at h1 ⊢
                  simp [List.countP_append, h1, is_rate_limit_sleep, is_retriable_request_exc]
                · simp only [is_retriable_request_exc, is_over_query_limit]
                  by_cases hflag : cfg.retry_over_query_limit
                  · simp only [hflag, Bool.not_true, Bool.and_false, Bool.false_eq_true, if_false,
                      if_true]
                    have hrec := ih cfg url p2 (some (frt.getD st.clock)) (rc + 1) pj false jit
                      ⟨(backoff_step rc (jit rc) st).1.clock + r.netDelay,
                 (backoff_step rc (jit rc) st).1.sent_times⟩ hq hemp
                    refine ⟨hrec.1, ?_⟩
                    have h2 := hrec.2
                    simp only [rate_limit_sleep_count] at h1 h2 ⊢
                    simp [List.countP_append, h1, h2, is_rate_limit_sleep]
                  · simp only [Bool.not_eq_true] at hflag
                    simp only [hflag, Bool.not_false, Bool.and_true, if_pos rfl, if_true]
                    refine ⟨hemp, ?_⟩
                    simp only [rate_limit_sleep_count] at h1 ⊢
                    simp [List.countP_append, h1, is_rate_limit_sleep]
                · refine ⟨hemp, ?_⟩
                  simp only [rate_limit_sleep_count] at h1 ⊢
                  simp [List.countP_append, h1, is_rate_limit_sleep, is_retriable_request_exc]
              · refine ⟨?_, ?_⟩
                · simp [hq, deque_append]
                · simp only [rate_limit_sleep_count] at h1 ⊢
                  simp [List.countP_append, h1, is_rate_limit_sleep, send_time]
          · refine ⟨hemp, ?_⟩
            simp only [rate_limit_sleep_count] at h1 ⊢
            simp [List.countP_append, h1, is_rate_limit_sleep]
          · refine ⟨hemp, ?_⟩
            simp only [rate_limit_sleep_count] at h1 ⊢
            simp [List.countP_append, h1, is_rate_limit_sleep]

/-! ### Claim C8 -/

/-- C8: with `queries_per_minute = 0` the send-timestamp window (a deque of
maxlen 0) stays empty across any sequence of calls, and no rate-limit sleep
ever occurs — a zero quota behaves as unlimited (the `if self.sent_times`
truthiness guard never fires) rather than blocking every call. -/
theorem ors_C8_zero_quota :
    ∀ (calls : List Call) (cfg : Client) (st : ClientState),
      cfg.queries_per_minute = 0 → st.sent_times = [] →
      (runCalls cfg st calls).1.sent_times = []
      ∧ rate_limit_sleep_count (runCalls cfg st calls).2 = 0 := by
  intro calls
  induction calls with
  | nil =>
    intro cfg st hq hst
    exact ⟨hst, rfl⟩
  | cons c cs ih =>
    intro cfg st hq hst
    have h1 := request_quota0 c.resps cfg c.url c.params none 0 c.post_json false c.jitters st hq hst
    have h2 := ih cfg
      (request cfg c.url c.params none 0 c.post_json false c.jitters st c.resps).2.1 hq h1.1
    simp only [runCalls]
    refine ⟨h2.1, ?_⟩
    have h1c := h1.2
    have h2c := h2.2
    simp only [rate_limit_sleep_count] at h1c h2c ⊢
    simp [List.countP_append, h1c, h2c]

/-- C8 witness: two concrete back-to-back calls on a zero-quota dispatcher
leave the window empty and never sleep for rate limiting. -/
theorem ors_C8_zero_quota_witness :
    (runCalls cfgQuota0 ⟨0, []⟩
        [⟨"/d", Params.dict [], none, zeroJitter, [⟨1, .resp 200 "a"⟩]⟩,
         ⟨"/d", Params.dict [], none, zeroJitter, [⟨1, .resp 200 "b"⟩]⟩]).1.sent_times = []
    ∧ rate_limit_sleep_count (runCalls cfgQuota0 ⟨0, []⟩
        [⟨"/d", Params.dict [], none, zeroJitter, [⟨1, .resp 200 "a"⟩]⟩,
         ⟨"/d", Params.dict [], none, zeroJitter, [⟨1, .resp 200 "b"⟩]⟩]).2 = 0 :=
  ors_C8_zero_quota
    [⟨"/d", Params.dict [], none, zeroJitter, [⟨1, .resp 200 "a"⟩]⟩,
     ⟨"/d", Params.dict [], none, zeroJitter, [⟨1, .resp 200 "b"⟩]⟩] cfgQuota0 ⟨0, []⟩ rfl rfl


theorem sends_append (a b : List Event) : sends (a ++ b) = sends a ++ sends b := by
  simp [sends, List.filterMap_append]

theorem st2_clock_le (cfg : Client) (rc : Nat) (r : ℚ) (st : ClientState) (hr : 0 ≤ r) :
    st.clock ≤ (rate_limit_step cfg (backoff_step rc r st).1).1.clock :=
  le_trans (backoff_step_clock_le rc r st hr) (rate_limit_step_clock_le cfg _)

theorem st2_sent_times (cfg : Client) (rc : Nat) (r : ℚ) (st : ClientState) :
    (rate_limit_step cfg (backoff_step rc r st).1).1.sent_times = st.sent_times :=
  (rate_limit_step_sent_times cfg _).trans (backoff_step_sent_times rc r st)

theorem st2_full_clock (cfg : Client) (rc : Nat) (r : ℚ) (st : ClientState)
    (hne : st.sent_times ≠ []) (hlen : st.sent_times.length = cfg.queries_per_minute) :
    st.sent_times.headD 0 + 60 ≤ (rate_limit_step cfg (backoff_step rc r st).1).1.clock := by
  have h1 := backoff_step_sent_times rc r st
  have := rate_limit_step_full_clock cfg (backoff_step rc r st).1
    (by rw [h1]; exact hne) (by rw [h1]; exact hlen)
  rwa [h1] at this

theorem request_send_step (resps : List DispatchEnv) :
    ∀ (cfg : Client) (url : String) (params : Params) (frt : Option ℚ) (rc : Nat)
      (pj : Option String) (dr : Bool) (jit : Nat → ℚ) (st : ClientState),
      (∀ k, 0 ≤ jit k) → (∀ r ∈ resps, 0 ≤ r.netDelay) →
      st.clock ≤ (request cfg url params frt rc pj dr jit st resps).2.1.clock
      ∧ ((sends (request cfg url params frt rc pj dr jit st resps).2.2 = []
            ∧ (request cfg url params frt rc pj dr jit st resps).2.1.sent_times = st.sent_times)
         ∨ (∃ t, sends (request cfg url params frt rc pj dr jit st resps).2.2 = [t]
              ∧ (request cfg url params frt rc pj dr jit st resps).2.1.sent_times
                  = deque_append cfg.queries_per_minute st.sent_times t
              ∧ st.clock ≤ t
              ∧ t ≤ (request cfg url params frt rc pj dr jit st resps).2.1.clock
              ∧ (st.sent_times ≠ [] → st.sent_times.length = cfg.queries_per_minute →
                  st.sent_times.headD 0 + 60 ≤ t))) := by
  induction resps with
  | nil =>
    intro cfg url params frt rc pj dr jit st hjit hnet
    rw [request]
    by_cases hdl : cfg.retry_timeout < st.clock - frt.getD st.clock
    · rw [if_pos hdl]
      exact ⟨le_refl _, Or.inl ⟨rfl, rfl⟩⟩
    · rw [if_neg hdl]
      rcases hau : generate_auth_url cfg url params with e | ⟨au, p2⟩ <;> simp only [hau]
      · exact ⟨backoff_step_clock_le rc (jit rc) st (hjit rc),
          Or.inl ⟨sends_backoff rc (jit rc) st, backoff_step_sent_times rc (jit rc) st⟩⟩
      · by_cases hdr : dr = true <;> [rw [if_pos hdr]; rw [if_neg hdr]] <;>
          refine ⟨st2_clock_le cfg rc (jit rc) st (hjit rc), Or.inl ⟨?_, st2_sent_times cfg rc (jit rc) st⟩⟩
        · rw [sends_append, sends_append, sends_backoff, sends_rate_limit]
          simp [sends, send_time]
        · rw [sends_append, sends_backoff, sends_rate_limit]
          rfl
  | cons r rest ih =>
    intro cfg url params frt rc pj dr jit st hjit hnet
    have hr0 : 0 ≤ r.netDelay := hnet r (List.mem_cons_self r rest)
    have hnet' : ∀ r2 ∈ rest, 0 ≤ r2.netDelay := fun r2 hr2 => hnet r2 (List.mem_cons_of_mem r hr2)
    rw [request]
    by_cases hdl : cfg.retry_timeout < st.clock - frt.getD st.clock
    · rw [if_pos hdl]
      exact ⟨le_refl _, Or.inl ⟨rfl, rfl⟩⟩
    · rw [if_neg hdl]
      rcases hau : generate_auth_url cfg url params with e | ⟨au, p2⟩ <;> simp only [hau]
      · exact ⟨backoff_step_clock_le rc (jit rc) st (hjit rc),
          Or.inl ⟨sends_backoff rc (jit rc) st, backoff_step_sent_times rc (jit rc) st⟩⟩
      · have hcl2 := st2_clock_le cfg rc (jit rc) st (hjit rc)
        have hsent2 := st2_sent_times cfg rc (jit rc) st
        have hcl3 : st.clock ≤ (rate_limit_step cfg (backoff_step rc (jit rc) st).1).1.clock
            + r.netDelay := by linarith
        by_cases hdr : dr = true <;> [rw [if_pos hdr]; rw [if_neg hdr]]
        · refine ⟨hcl2, Or.inl ⟨?_, hsent2⟩⟩
          rw [sends_append, sends_append, sends_backoff, sends_rate_limit]
          simp [sends, send_time]
        · have hsends_pre : sends ((backoff_step rc (jit rc) st).2
              ++ (rate_limit_step cfg (backoff_step rc (jit rc) st).1).2
              ++ [Event.dispatch (cfg.base_url ++ au) pj.isSome]) = [] := by
            rw [sends_append, sends_append, sends_backoff, sends_rate_limit]
            simp [sends, send_time]
          rcases ho : r.outcome with ⟨status, body⟩ | _ | _ <;> simp only [ho]
          · by_cases hs : status ∈ RETRIABLE_STATUSES <;> [rw [if_pos hs]; rw [if_neg hs]]
            · have hrec := ih cfg url p2 (some (frt.getD st.clock)) (rc + 1) pj false jit
                ⟨(rate_limit_step cfg (backoff_step rc (jit rc) st).1).1.clock + r.netDelay,
                 (rate_limit_step cfg (backoff_step rc (jit rc) st).1).1.sent_times⟩ hjit hnet'
              dsimp only at hrec
              rcases hrec with ⟨hrc, hro⟩
              constructor
              · exact le_trans hcl3 hrc
              · rw [sends_append, hsends_pre, List.nil_append]
                rcases hro with ⟨hs0, hsame⟩ | ⟨t, ht1, ht2, ht3, ht4, ht5⟩
                · exact Or.inl ⟨hs0, hsame.trans hsent2⟩
                · refine Or.inr ⟨t, ht1, ?_, le_trans hcl3 ht3, ht4, ?_⟩
                  · rw [ht2, hsent2]
                  · intro hne hlen
                    have := ht5 (by rw [hsent2]; exact hne)
                      (by rw [hsent2]; exact hlen)
                    rw [hsent2] at this
                    exact this
            · rcases hgb : get_body status body with e | b2 <;> simp only [hgb]
              · rcases e with _ | _ | _ | _ | ⟨s2, b2⟩ | ⟨s2, b2⟩
                · exact ⟨le_trans hcl3 (le_refl _), Or.inl ⟨hsends_pre, hsent2⟩⟩
                · exact ⟨hcl3, Or.inl ⟨hsends_pre, hsent2⟩⟩
                · exact ⟨hcl3, Or.inl ⟨hsends_pre, hsent2⟩⟩
                · exact ⟨hcl3, Or.inl ⟨hsends_pre, hsent2⟩⟩
                · simp only [is_retriable_request_exc, is_over_query_limit]
                  by_cases hflag : cfg.retry_over_query_limit
                  · simp only [hflag, Bool.not_true, Bool.and_false, Bool.false_eq_true, if_false,
                      if_true]
                    have hrec := ih cfg url p2 (some (frt.getD st.clock)) (rc + 1) pj false jit
                      ⟨(rate_limit_step cfg (backoff_step rc (jit rc) st).1).1.clock + r.netDelay,
                       (rate_limit_step cfg (backoff_step rc (jit rc) st).1).1.sent_times⟩ hjit hnet'
                    dsimp only at hrec
                    rcases hrec with ⟨hrc, hro⟩
                    constructor
                    · exact le_trans hcl3 hrc
                    · rw [sends_append, hsends_pre, List.nil_append]
                      rcases hro with ⟨hs0, hsame⟩ | ⟨t, ht1, ht2, ht3, ht4, ht5⟩
                      · exact Or.inl ⟨hs0, hsame.trans hsent2⟩
                      · refine Or.inr ⟨t, ht1, ?_, le_trans hcl3 ht3, ht4, ?_⟩
                        · rw [ht2, hsent2]
                        · intro hne hlen
                          have := ht5 (by rw [hsent2]; exact hne)
                            (by rw [hsent2]; exact hlen)
                          rw [hsent2] at this
                          exact this
                  · simp only [Bool.not_eq_true] at hflag
                    simp only [hflag, Bool.not_false, Bool.and_true, if_pos rfl, if_true]
                    exact ⟨hcl3, Or.inl ⟨hsends_pre, hsent2⟩⟩
                · exact ⟨hcl3, Or.inl ⟨hsends_pre, hsent2⟩⟩
              · refine ⟨hcl3, Or.inr ⟨(rate_limit_step cfg (backoff_step rc (jit rc) st).1).1.clock
                  + r.netDelay, ?_, ?_, hcl3, le_refl _, ?_⟩⟩
                · rw [sends_append, hsends_pre, List.nil_append]
                  simp [sends, send_time]
                · dsimp only
                  rw [hsent2]
                · intro hne hlen
                  have hfull := st2_full_clock cfg rc (jit rc) st hne hlen
                  linarith
          · exact ⟨hcl3, Or.inl ⟨hsends_pre, hsent2⟩⟩
          · exact ⟨hcl3, Or.inl ⟨hsends_pre, hsent2⟩⟩


theorem headD_drop (h : List ℚ) : ∀ (n : Nat) (hn : n < h.length),
    (h.drop n).headD 0 = h.get ⟨n, hn⟩ := by
  induction h with
  | nil => intro n hn; simp at hn
  | cons a tl ih =>
    intro n hn
    cases n with
    | zero => rfl
    | succ m =>
      simp only [List.drop_succ_cons]
      rw [ih m (by simpa using hn)]
      rfl

theorem lastN_length (n : Nat) (xs : List ℚ) :
    (lastN n xs).length = xs.length - (xs.length - n) := by
  simp [lastN]

theorem deque_append_lastN (Q : Nat) (h : List ℚ) (t : ℚ) :
    deque_append Q (lastN Q h) t = lastN Q (h ++ [t]) := by
  rcases Nat.eq_zero_or_pos Q with rfl | hQpos
  · simp [deque_append, lastN, List.drop_length]
  rcases le_or_lt h.length Q with hQL | hQL
  · have h1 : lastN Q h = h := by simp [lastN, Nat.sub_eq_zero_of_le hQL]
    rw [h1]
    rfl
  · have hlen2 : (lastN Q h).length = Q := by
      rw [lastN_length]
      omega
    show ((lastN Q h) ++ [t]).drop (((lastN Q h) ++ [t]).length - Q)
        = (h ++ [t]).drop ((h ++ [t]).length - Q)
    have e1 : ((lastN Q h) ++ [t]).length - Q = 1 := by
      rw [List.length_append, hlen2]
      simp
    have e2 : (h ++ [t]).length - Q = (h.length - Q) + 1 := by
      rw [List.length_append]
      simp
      omega
    rw [e1, e2]
    rw [List.drop_append_of_le_length (by rw [hlen2]; omega)]
    rw [List.drop_append_of_le_length (by omega)]
    congr 1
    show (h.drop (h.length - Q)).drop 1 = h.drop (h.length - Q + 1)
    rw [List.drop_drop]

theorem pairwise_le_get_mono (h : List ℚ) (hs : List.Pairwise (· ≤ ·) h)
    (i j : Nat) (hi : i < h.length) (hj : j < h.length) (hij : i ≤ j) :
    h.get ⟨i, hi⟩ ≤ h.get ⟨j, hj⟩ := by
  rcases Nat.lt_or_ge i j with hlt | hge
  · exact List.pairwise_iff_get.mp hs ⟨i, hi⟩ ⟨j, hj⟩ hlt
  · have : i = j := by omega
    subst this
    exact le_refl _


theorem runCalls_window (calls : List Call) :
    ∀ (cfg : Client) (st : ClientState) (h : List ℚ),
      1 ≤ cfg.queries_per_minute →
      (∀ c ∈ calls, EnvOK c.jitters c.resps) →
      st.sent_times = lastN cfg.queries_per_minute h →
      List.Pairwise (· ≤ ·) h →
      (∀ x ∈ h, x ≤ st.clock) →
      GapOK cfg.queries_per_minute h →
      GapOK cfg.queries_per_minute (h ++ sends (runCalls cfg st calls).2)
      ∧ List.Pairwise (· ≤ ·) (h ++ sends (runCalls cfg st calls).2)
      ∧ (∀ x ∈ h ++ sends (runCalls cfg st calls).2, x ≤ (runCalls cfg st calls).1.clock)
      ∧ (runCalls cfg st calls).1.sent_times
          = lastN cfg.queries_per_minute (h ++ sends (runCalls cfg st calls).2)
      ∧ st.clock ≤ (runCalls cfg st calls).1.clock := by
  induction calls with
  | nil =>
    intro cfg st h hQ henv hsent hsort hbound hgap
    simp only [runCalls, sends, List.filterMap_nil, List.append_nil]
    exact ⟨hgap, hsort, hbound, hsent, le_refl _⟩
  | cons c cs ih =>
    intro cfg st h hQ henv hsent hsort hbound hgap
    have henvc := henv c (List.mem_cons_self c cs)
    have henvcs : ∀ c2 ∈ cs, EnvOK c2.jitters c2.resps :=
      fun c2 hc2 => henv c2 (List.mem_cons_of_mem c hc2)
    have hstep := request_send_step c.resps cfg c.url c.params none 0 c.post_json false
      c.jitters st henvc.1 henvc.2
    simp only [runCalls]
    rcases hstep with ⟨hclk, hcase⟩
    rcases hcase with ⟨hs0, hsame⟩ | ⟨t, ht1, ht2, ht3, ht4, ht5⟩
    · -- no send recorded by this call
      have hrec := ih cfg
        (request cfg c.url c.params none 0 c.post_json false c.jitters st c.resps).2.1 h hQ henvcs
        (hsame.trans hsent) hsort (fun x hx => le_trans (hbound x hx) hclk) hgap
      rw [sends_append, hs0, List.nil_append]
      exact ⟨hrec.1, hrec.2.1, hrec.2.2.1, hrec.2.2.2.1, le_trans hclk hrec.2.2.2.2⟩
    · -- this call recorded the send t
      have hsort' : List.Pairwise (· ≤ ·) (h ++ [t]) := by
        rw [List.pairwise_append]
        exact ⟨hsort, List.pairwise_singleton _ _,
          fun x hx y hy => by
            rw [List.mem_singleton] at hy
            subst hy
            exact le_trans (hbound x hx) ht3⟩
      have hbound' : ∀ x ∈ h ++ [t],
          x ≤ (request cfg c.url c.params none 0 c.post_json false c.jitters st c.resps).2.1.clock := by
        intro x hx
        rw [List.mem_append, List.mem_singleton] at hx
        rcases hx with hx | rfl
        · exact le_trans (hbound x hx) hclk
        · exact ht4
      have hsent' :
          (request cfg c.url c.params none 0 c.post_json false c.jitters st c.resps).2.1.sent_times
            = lastN cfg.queries_per_minute (h ++ [t]) := by
        rw [ht2, hsent, deque_append_lastN]
      have hgap' : GapOK cfg.queries_per_minute (h ++ [t]) := by
        intro i j hi hj hij
        rw [List.length_append, List.length_singleton] at hi hj
        rcases Nat.lt_or_ge j h.length with hjlt | hjge
        · have hilt : i < h.length := by omega
          rw [List.get_append i hilt, List.get_append j hjlt]
          exact hgap i j hilt hjlt hij
        · have hj' : j = h.length := by omega
          subst hj'
          have hilt : i < h.length := by omega
          rw [List.get_append i hilt]
          have htlast : (h ++ [t]).get ⟨h.length, by simp⟩ = t := by
            simp [List.get_append_right]
          rw [htlast]
          rcases Nat.lt_or_ge h.length cfg.queries_per_minute with hQL | hQL
          · omega
          · have hne : st.sent_times ≠ [] := by
              rw [hsent]
              intro hcon
              have := congrArg List.length hcon
              rw [lastN_length] at this
              simp at this
              omega
            have hlen : st.sent_times.length = cfg.queries_per_minute := by
              rw [hsent, lastN_length]
              omega
            have h60 := ht5 hne hlen
            have hidx : h.length - cfg.queries_per_minute < h.length := by omega
            have hoget : st.sent_times.headD 0
                = h.get ⟨h.length - cfg.queries_per_minute, hidx⟩ := by
              rw [hsent]
              exact headD_drop h _ hidx
            rw [hoget] at h60
            have hmono := pairwise_le_get_mono h hsort i (h.length - cfg.queries_per_minute)
              hilt (by omega) (by omega)
            linarith
      have hrec := ih cfg
        (request cfg c.url c.params none 0 c.post_json false c.jitters st c.resps).2.1
        (h ++ [t]) hQ henvcs hsent' hsort' hbound' hgap'
      rw [sends_append, ht1]
      have hassoc : h ++ ([t] ++ sends (runCalls cfg
          (request cfg c.url c.params none 0 c.post_json false c.jitters st c.resps).2.1 cs).2)
          = (h ++ [t]) ++ sends (runCalls cfg
          (request cfg c.url c.params none 0 c.post_json false c.jitters st c.resps).2.1 cs).2 := by
        rw [List.append_assoc]
      rw [hassoc]
      exact ⟨hrec.1, hrec.2.1, hrec.2.2.1, hrec.2.2.2.1, le_trans hclk hrec.2.2.2.2⟩

theorem request_rate_limit_exact_sleep :
    ∀ (cfg : Client) (url : String) (params : Params) (pj : Option String)
      (jit : Nat → ℚ) (st : ClientState) (r : DispatchEnv) (rest : List DispatchEnv)
      (au : String) (p2 : Params),
      0 ≤ cfg.retry_timeout →
      generate_auth_url cfg url params = .ok (au, p2) →
      st.sent_times ≠ [] →
      st.sent_times.length = cfg.queries_per_minute →
      st.clock - st.sent_times.headD 0 < 60 →
      (request cfg url params none 0 pj false jit st (r :: rest)).2.2.head?
        = some (.rateLimitSleep (60 - (st.clock - st.sent_times.headD 0))) := by
  intro cfg url params pj jit st r rest au p2 hrt hau hne hlen hlt
  have hdl : ¬ (cfg.retry_timeout < st.clock - (none : Option ℚ).getD st.clock) := by
    simp only [Option.getD]
    intro hcon
    have : st.clock - st.clock = 0 := by ring
    rw [this] at hcon
    linarith
  rw [request, if_neg hdl, hau]
  have hb0 : backoff_step 0 (jit 0) st = (st, []) := by
    simp [backoff_step]
  have hrl : rate_limit_step cfg st
      = ({st with clock := st.clock + (60 - (st.clock - st.sent_times.headD 0))},
         [.rateLimitSleep (60 - (st.clock - st.sent_times.headD 0))]) := by
    simp only [rate_limit_step, if_pos (And.intro hne hlen), if_pos hlt]
  rw [hb0]
  dsimp only
  rw [hrl]
  dsimp only
  rcases ho : r.outcome with ⟨status, body⟩ | _ | _ <;> simp only [ho]
  · by_cases hs : status ∈ RETRIABLE_STATUSES <;> [rw [if_pos hs]; rw [if_neg hs]]
    · simp
    · rcases hgb : get_body status body with e | b2 <;> simp only [hgb]
      · split_ifs <;> simp
      · simp
  · simp
  · simp

/-! ### Claim C2 -/

/-- C2 counterexample: the claim quantifies over every quota value, but a
quota of 0 disables rate limiting entirely (see C8): two sends one second
apart land in the same trailing 60-second window although the quota is 0,
so "at most Q sends in any trailing 60-second window" fails at Q = 0. -/
theorem ors_C2_window_cex :
    cfgQuota0.queries_per_minute = 0
    ∧ sends (runCalls cfgQuota0 ⟨0, []⟩
        [⟨"/d", Params.dict [], none, zeroJitter, [⟨1, .resp 200 "a"⟩]⟩,
         ⟨"/d", Params.dict [], none, zeroJitter, [⟨1, .resp 200 "b"⟩]⟩]).2 = [1, 2]
    ∧ ((2 : ℚ) - 1 < 60) := by
  refine ⟨rfl, ?_, by norm_num⟩
  norm_num +decide [runCalls, request, sends, send_time, cfgQuota0, zeroJitter, backoff_step,
    backoff_delay, rate_limit_step, generate_auth_url, urlencode_params, urlencode,
    unquote_unreserved, split_on_percent, unquote_part, quote_plus, py_str, sortByKey,
    normalize_for_urlencode, get_body, RETRIABLE_STATUSES, DEFAULT_BASE_URL, deque_append]

/-- C2 amended: for every POSITIVE quota Q.  Part 1: over any sequence of
calls on one dispatcher started with an empty window (jitter and network
delays nonnegative), the recorded sends are chronological, sends Q apart
are at least 60 s apart (`GapOK`), and hence any two sends less than 60 s
apart are fewer than Q positions apart — at most Q sends in any trailing
60-second window.  Part 2: when the window holds Q timestamps and the
oldest is under 60 s old, the next call's first action is to sleep exactly
the remainder of those 60 seconds, before its dispatch. -/
theorem ors_C2_amended :
    (∀ (cfg : Client) (t0 : ℚ) (calls : List Call),
        1 ≤ cfg.queries_per_minute →
        (∀ c ∈ calls, EnvOK c.jitters c.resps) →
        GapOK cfg.queries_per_minute (sends (runCalls cfg ⟨t0, []⟩ calls).2)
        ∧ List.Pairwise (· ≤ ·) (sends (runCalls cfg ⟨t0, []⟩ calls).2)
        ∧ (∀ i j (hi : i < (sends (runCalls cfg ⟨t0, []⟩ calls).2).length)
             (hj : j < (sends (runCalls cfg ⟨t0, []⟩ calls).2).length), i ≤ j →
             (sends (runCalls cfg ⟨t0, []⟩ calls).2).get ⟨j, hj⟩
               - (sends (runCalls cfg ⟨t0, []⟩ calls).2).get ⟨i, hi⟩ < 60 →
             j - i < cfg.queries_per_minute))
    ∧ (∀ (cfg : Client) (url : String) (params : Params) (pj : Option String)
        (jit : Nat → ℚ) (st : ClientState) (r : DispatchEnv) (rest : List DispatchEnv)
        (au : String) (p2 : Params),
        0 ≤ cfg.retry_timeout →
        generate_auth_url cfg url params = .ok (au, p2) →
        st.sent_times ≠ [] →
        st.sent_times.length = cfg.queries_per_minute →
        st.clock - st.sent_times.headD 0 < 60 →
        (request cfg url params none 0 pj false jit st (r :: rest)).2.2.head?
          = some (.rateLimitSleep (60 - (st.clock - st.sent_times.headD 0)))) := by
  refine ⟨?_, request_rate_limit_exact_sleep⟩
  intro cfg t0 calls hQ henv
  have hgap0 : GapOK cfg.queries_per_minute ([] : List ℚ) := by
    intro i j hi hj hij
    exact absurd hi (by simp)
  have base := runCalls_window calls cfg ⟨t0, []⟩ [] hQ henv (by simp [lastN]) List.Pairwise.nil
    (fun x hx => absurd hx (List.not_mem_nil x)) hgap0
  rw [List.nil_append] at base
  refine ⟨base.1, base.2.1, ?_⟩
  intro i j hi hj hij hlt
  by_contra hge
  push_neg at hge
  have hiQ : i + cfg.queries_per_minute ≤ j := by omega
  have := base.1 i j hi hj hiQ
  linarith

/-- C2 witness: quota 1, one send recorded at time 0, next call entering at
time 30 sleeps exactly 30 seconds before dispatching. -/
theorem ors_C2_amended_witness :
    (request cfgQuota1 "/p" (Params.dict []) none 0 none false zeroJitter ⟨30, [0]⟩
        [⟨0, .resp 200 "ok"⟩]).2.2.head? = some (.rateLimitSleep 30) := by
  have h := ors_C2_amended.2 cfgQuota1 "/p" (Params.dict []) none zeroJitter ⟨30, [0]⟩
    ⟨0, .resp 200 "ok"⟩ [] "/p?api_key=KEY" (Params.dict [])
    (by norm_num [cfgQuota1]) (by decide) (by simp) (by rfl) (by norm_num)
  norm_num at h
  exact h

end ORS
